import Mathlib

/-!
Verification development for nft_snapshot.py (python_solana_nft_snapshot).

The program enriches a token map (token identifier to record dictionary) with
holder data, on-chain account data and off-chain arweave metadata, caches the
map as JSON on disk, and aggregates holder counts, trait distributions and a
CSV snapshot.  Records are JSON dictionaries, so the embedding is built on a
JSON value type.  Remote services (Solana RPC, the utils.metadata decoder,
which is not part of the repository sources, and HTTP endpoints) are modelled
as oracles passed to the functions that call them; every other step of each
source function (dictionary subscripts, dot-get calls, truthiness tests,
control flow, exception behaviour) is translated directly.
-/

/-- JSON values, the data manipulated by the program: records in the token
map, cached documents and HTTP response bodies. -/
inductive Json where
  | null
  | bool (b : Bool)
  | num (n : Int)
  | str (s : String)
  | arr (items : List Json)
  | obj (fields : List (String × Json))

mutual

/-- Structural equality of JSON values (Python equality restricted to the
JSON fragment). -/
def jsonBeq : Json → Json → Bool
  | .null, .null => true
  | .bool a, .bool b => a == b
  | .num a, .num b => a == b
  | .str a, .str b => a == b
  | .arr xs, .arr ys => jsonBeqList xs ys
  | .obj xs, .obj ys => jsonBeqObj xs ys
  | _, _ => false

/-- Equality of JSON arrays, element by element. -/
def jsonBeqList : List Json → List Json → Bool
  | [], [] => true
  | x :: xs, y :: ys => jsonBeq x y && jsonBeqList xs ys
  | _, _ => false

/-- Equality of JSON objects, field by field. -/
def jsonBeqObj : List (String × Json) → List (String × Json) → Bool
  | [], [] => true
  | (k, v) :: xs, (l, w) :: ys => k == l && (jsonBeq v w && jsonBeqObj xs ys)
  | _, _ => false

end

/-- Kinds of Python exceptions raised by the modelled code paths. -/
inductive PyErr where
  | keyError
  | attributeError
  | typeError
  | indexError
  | ioError
  | fileNotFound
  | jsonDecodeError
  | connectionError
  deriving DecidableEq

/-- First-match association lookup: the semantics of indexing a Python dict
(dicts have unique keys, so first match is the match). -/
def alookup {α : Type} (k : String) : List (String × α) → Option α
  | [] => none
  | (k', v) :: rest => if k' = k then some v else alookup k rest

/-- Update the binding of a key in place, or append a new binding at the end:
the semantics of assigning to a Python dict key (insertion order preserved). -/
def aset {α : Type} : List (String × α) → String → α → List (String × α)
  | [], k, v => [(k, v)]
  | (k', w) :: rest, k, v => if k' = k then (k', v) :: rest else (k', w) :: aset rest k v

/-- Python truthiness of a JSON value: None, False, zero, the empty string,
the empty list and the empty dict are falsy. -/
def truthy : Json → Bool
  | .null => false
  | .bool b => b
  | .num n => n != 0
  | .str s => s != ""
  | .arr items => !items.isEmpty
  | .obj fields => !fields.isEmpty

/-- Whether a JSON value may be used as a Python dict key: lists and dicts
are unhashable and raise TypeError. -/
def hashable : Json → Bool
  | .arr _ => false
  | .obj _ => false
  | _ => true

/-- Python dot-get on a value: returns the optional field of a dict, raises
AttributeError when the receiver is not a dict (None, string, number, list
have no get method). -/
def pyGet (j : Json) (k : String) : Except PyErr (Option Json) :=
  match j with
  | .obj fields => .ok (alookup k fields)
  | _ => .error .attributeError

/-- Python subscript on a value with a string key: KeyError when the key is
missing from a dict, TypeError when the receiver is not a dict. -/
def pySubscr (j : Json) (k : String) : Except PyErr Json :=
  match j with
  | .obj fields =>
      match alookup k fields with
      | some v => .ok v
      | none => .error .keyError
  | _ => .error .typeError

/-- Python subscript with an integer index: IndexError when out of range,
TypeError when the receiver is not a list. -/
def pyIndex (j : Json) (i : Nat) : Except PyErr Json :=
  match j with
  | .arr items =>
      match items[i]? with
      | some v => .ok v
      | none => .error .indexError
  | _ => .error .typeError

/-- One record of the token map: a Python dict from field name to JSON value
(fields token, holders, account, arweave). -/
abbrev TokenRecord := List (String × Json)

/-- The token map all_token_data: a Python dict from token identifier to
record, in insertion order. -/
abbrev TokenMap := List (String × TokenRecord)

/-- Result of the Python expression record.get(field) is None: true when the
field is absent or bound to None.  This is the needs-fetching test used by
all three enrichment selection loops. -/
def getIsNone (r : TokenRecord) (field : String) : Bool :=
  match alookup field r with
  | none => true
  | some .null => true
  | some _ => false

/-- Tokens selected by an enrichment loop over token_data.keys(): those whose
record satisfies the get-is-None test for the phase's target field.  One
fetch task is created per selected token. -/
def pending (field : String) (m : TokenMap) : List String :=
  (m.filter fun td => getIsNone td.2 field).map Prod.fst

/-- Content of a file in the modelled filesystem: a JSON document (the parse
of what json.dump wrote, since Python round-trips JSON documents exactly), or
text that json.load rejects. -/
inductive FileContent where
  | jsonDoc (j : Json)
  | invalidDoc

/-- Filesystem state: cache directory files by path.  Reads and writes take a
boolean saying whether the underlying I/O succeeds, covering the open, mkdir,
read and write failure modes of the source. -/
structure FS where
  files : List (String × FileContent)

/-- Directory holding cache files, constant CACHE_DIR of the source. -/
def CACHE_DIR : String := "cache"

/-- Body of load_request_cache before its except clause: format the filename
from the cache key, open the file under CACHE_DIR and parse it with
json.load.  Any of these steps may raise. -/
def load_request_cache_attempt (cache_file_key : String) (fs : FS) (ioOk : Bool) :
    Except PyErr Json :=
  let filename := cache_file_key ++ "_cache.json"
  if ioOk = false then .error .ioError
  else
    match alookup (CACHE_DIR ++ "/" ++ filename) fs.files with
    | none => .error .fileNotFound
    | some .invalidDoc => .error .jsonDecodeError
    | some (.jsonDoc cache_data) => .ok cache_data

/-- Function load_request_cache of the source: return the parsed cache file,
and on any exception log and return the empty dict. -/
def load_request_cache (cache_file_key : String) (fs : FS) (ioOk : Bool) : Json :=
  match load_request_cache_attempt cache_file_key fs ioOk with
  | .ok cache_data => cache_data
  | .error _ => Json.obj []

/-- Body of save_request_cache before its except clause: format the filename
from the cache key, create CACHE_DIR if needed, open the file for writing and
json.dump the map into it (a full-file overwrite). -/
def save_request_cache_attempt (cache_file_key : String) (cache_data : Json) (fs : FS)
    (ioOk : Bool) : Except PyErr FS :=
  let filename := cache_file_key ++ "_cache.json"
  if ioOk = false then .error .ioError
  else .ok ⟨aset fs.files (CACHE_DIR ++ "/" ++ filename) (.jsonDoc cache_data)⟩

/-- Function save_request_cache of the source: write the map, and on any
exception log a warning and leave the filesystem as it was. -/
def save_request_cache (cache_file_key : String) (cache_data : Json) (fs : FS)
    (ioOk : Bool) : FS :=
  match save_request_cache_attempt cache_file_key cache_data fs ioOk with
  | .ok fs' => fs'
  | .error _ => fs

/-- One scripted HTTP response: its status code and the outcome of calling
resp.json() on it (which raises when the body is not valid JSON). -/
structure HttpResponse where
  status : Nat
  body : Except PyErr Json

/-- Function async_http_request of the source, run against a script listing
the successive responses of the url: issue session.get; on status 429 sleep
and recurse on the same url; on any other non-200 status log an error and
fall through; finally parse and return the response body.  Returns the
Python result together with the list of urls requested, in order.  An empty
script stands for a connection that fails outright. -/
def async_http_request (url : String) : List HttpResponse → Except PyErr Json × List String
  | [] => (.error .connectionError, [url])
  | resp :: later =>
    if resp.status ≠ 200 then
      if resp.status = 429 then
        let (res, urls) := async_http_request url later
        (res, url :: urls)
      else (resp.body, [url])
    else (resp.body, [url])

/-- Function get_arweave_metadata of the source: read the uri from the
record's account data (subscripts raise when account or data is missing),
default the arweave field to the empty dict when it is None or absent, and
when the uri is truthy fetch it over HTTP and store the body in the arweave
field.  The http oracle maps a url to its response script; a non-string
truthy uri makes the aiohttp client raise. -/
def get_arweave_metadata (data_dict : TokenRecord) (http : String → List HttpResponse) :
    Except PyErr (TokenRecord × List String) := do
  let account ← match alookup "account" data_dict with
    | some a => Except.ok a
    | none => Except.error PyErr.keyError
  let dataVal ← pySubscr account "data"
  let arweave_uri ← pyGet dataVal "uri"
  let d1 := if getIsNone data_dict "arweave" then aset data_dict "arweave" (Json.obj []) else data_dict
  match arweave_uri with
  | some (Json.str u) =>
      if u = "" then pure (d1, [])
      else
        match async_http_request u (http u) with
        | (Except.ok body, urls) => pure (aset d1 "arweave" body, urls)
        | (Except.error e, _) => Except.error e
  | some v => if truthy v then Except.error PyErr.typeError else pure (d1, [])
  | none => pure (d1, [])

/-- Function get_holder_info_from_solana_async of the source: call
get_token_largest_accounts on the record's token, take the address of the
first value of the result, call get_account_info on it, extract the parsed
data and store it in the record's holders field.  The two client calls are
oracles for the remote RPC service; each chained subscript raises on a
malformed response. -/
def get_holder_info_from_solana_async
    (get_token_largest_accounts : Json → Except PyErr Json)
    (get_account_info : Json → Except PyErr Json)
    (data_dict : TokenRecord) : Except PyErr TokenRecord := do
  let tok ← match alookup "token" data_dict with
    | some t => Except.ok t
    | none => Except.error PyErr.keyError
  let largest_account ← get_token_largest_accounts tok
  let la1 ← pySubscr largest_account "result"
  let la2 ← pySubscr la1 "value"
  let la3 ← pyIndex la2 0
  let address ← pySubscr la3 "address"
  let account_info ← get_account_info address
  let ai1 ← pySubscr account_info "result"
  let ai2 ← pySubscr ai1 "value"
  let ai3 ← pySubscr ai2 "data"
  let parsed ← pySubscr ai3 "parsed"
  pure (aset data_dict "holders" parsed)

/-- Function get_account_info_from_solana_async of the source: resolve the
metadata account of the record's token, fetch and base64-decode it, unpack
it with utils.metadata.unpack_metadata_account and decode its byte fields.
The whole resolution is an oracle (utils.metadata is not among the
repository sources); its result is stored in the record's account field. -/
def get_account_info_from_solana_async (fetch_account : Json → Except PyErr Json)
    (data_dict : TokenRecord) : Except PyErr TokenRecord := do
  let tok ← match alookup "token" data_dict with
    | some t => Except.ok t
    | none => Except.error PyErr.keyError
  let unpacked_data ← fetch_account tok
  pure (aset data_dict "account" unpacked_data)

/-- The awaiting loop shared by the three enrichment phases: one task per
selected token, each updating its own record of the shared map.  The list
comprehension awaiting as_completed re-raises the first unhandled task
exception, which aborts the whole loop; tasks are otherwise merged in the
order given. -/
def run_tasks (task : String → TokenRecord → Except PyErr TokenRecord) :
    TokenMap → List String → Except PyErr TokenMap
  | m, [] => .ok m
  | m, t :: ts =>
    match alookup t m with
    | none => run_tasks task m ts
    | some r =>
      match task t r with
      | .ok r' => run_tasks task (aset m t r') ts
      | .error e => .error e

/-- Function populate_holders_details_async of the source: create one holder
fetch task per token whose holders field fails the get-is-None test, await
them all, then save the cache inside the inner coroutine and once more after
asyncio.run.  The second component lists the maps passed to
save_request_cache during the phase; when a task raises, asyncio.run
re-raises before either save happens. -/
def populate_holders_details_async
    (fetch_task : String → TokenRecord → Except PyErr TokenRecord)
    (all_token_data : TokenMap) : Except PyErr TokenMap × List TokenMap :=
  match run_tasks fetch_task all_token_data (pending "holders" all_token_data) with
  | .ok m => (.ok m, [m, m])
  | .error e => (.error e, [])

/-- Function populate_account_details_async of the source: first inner
coroutine fetches account data for tokens whose account field fails the
get-is-None test and saves the cache; second inner coroutine fetches arweave
metadata for tokens whose arweave field fails the test and saves the cache;
a final save follows asyncio.run of the second coroutine.  The second
component lists the maps passed to save_request_cache, in order; a raising
task aborts the phase at that point. -/
def populate_account_details_async (fetch_account : Json → Except PyErr Json)
    (http : String → List HttpResponse) (all_token_data : TokenMap) :
    Except PyErr TokenMap × List TokenMap :=
  match run_tasks (fun _ r => get_account_info_from_solana_async fetch_account r)
      all_token_data (pending "account" all_token_data) with
  | .error e => (.error e, [])
  | .ok m1 =>
    match run_tasks (fun _ r => (get_arweave_metadata r http).map Prod.fst)
        m1 (pending "arweave" m1) with
    | .error e => (.error e, [m1])
    | .ok m2 => (.ok m2, [m1, m2, m2])

/-- Increment a Python counter dict at a key: bump the existing entry in
place, or append a new entry with count one (the get-test, zero-init and
increment of the source collapse to this). -/
def dictIncr : List (Json × Nat) → Json → List (Json × Nat)
  | [], k => [(k, 1)]
  | (k', c) :: rest, k => if jsonBeq k' k then (k', c + 1) :: rest else (k', c) :: dictIncr rest k

/-- Loop body of holder_counts for one record: read the holders field
(KeyError when absent), call get on it for info and then for owner (the
second get raises AttributeError when info is None or not a dict), fall back
to the UNKNOWN_ADDRESS sentinel when the owner value is falsy or missing,
and bump the counter at that address (an unhashable address cannot key the
counter dict). -/
def holder_counts_step (counts : List (Json × Nat)) (data_dict : TokenRecord) :
    Except PyErr (List (Json × Nat)) := do
  let token_holders ← match alookup "holders" data_dict with
    | some h => Except.ok h
    | none => Except.error PyErr.keyError
  let infoOpt ← pyGet token_holders "info"
  let ownerOpt ← match infoOpt with
    | none => Except.error PyErr.attributeError
    | some infoVal => pyGet infoVal "owner"
  let holder_address := match ownerOpt with
    | some v => if truthy v then v else Json.str "UNKNOWN_ADDRESS"
    | none => Json.str "UNKNOWN_ADDRESS"
  if hashable holder_address then pure (dictIncr counts holder_address)
  else Except.error PyErr.typeError

/-- Counting loop of holder_counts over all records, accumulating the
per-address counter dict. -/
def holder_counts_loop (counts : List (Json × Nat)) : TokenMap → Except PyErr (List (Json × Nat))
  | [] => .ok counts
  | td :: rest => do
      let counts' ← holder_counts_step counts td.2
      holder_counts_loop counts' rest

/-- Counter dict built by the loop of holder_counts, before the result is
handed to print_biggest_holders. -/
def holder_counts_attempt (all_token_data : TokenMap) : Except PyErr (List (Json × Nat)) :=
  holder_counts_loop [] all_token_data

/-- Nested counters of attribute_distribution, keyed by trait type and then
by trait value. -/
abbrev AttrCounts := List (Json × List (Json × Nat))

/-- Increment the nested counter at a trait type and value: the source
initialises missing inner dicts to empty and missing counts to zero before
incrementing, which collapses to this nested increment. -/
def nestedIncr : AttrCounts → Json → Json → AttrCounts
  | [], tt, v => [(tt, [(v, 1)])]
  | (tt', inner) :: rest, tt, v =>
      if jsonBeq tt' tt then (tt', dictIncr inner v) :: rest
      else (tt', inner) :: nestedIncr rest tt v

/-- Inner loop body of attribute_distribution for one attribute: subscript
trait_type and value (KeyError when missing, TypeError when the attribute is
not a dict), replace a None value by the empty string, and bump the nested
counter (list or dict keys are unhashable and raise TypeError). -/
def process_attribute (attribute_counts : AttrCounts) (attributeVal : Json) :
    Except PyErr AttrCounts := do
  let trait_type ← pySubscr attributeVal "trait_type"
  let rawValue ← pySubscr attributeVal "value"
  let value := match rawValue with
    | Json.null => Json.str ""
    | v => v
  if hashable trait_type = false then Except.error PyErr.typeError
  else if hashable value = false then Except.error PyErr.typeError
  else pure (nestedIncr attribute_counts trait_type value)

/-- Inner loop of process_record over the attributes list. -/
def process_attributes (attribute_counts : AttrCounts) : List Json → Except PyErr AttrCounts
  | [] => .ok attribute_counts
  | a :: rest => do
      let counts' ← process_attribute attribute_counts a
      process_attributes counts' rest

/-- Loop body of attribute_distribution for one record: read the arweave
field (KeyError when absent), get its attributes, and when they are truthy
count the token and process each attribute; a truthy non-list value of
attributes makes the for loop or the attribute subscript raise TypeError. -/
def process_record (state : Nat × AttrCounts) (data_dict : TokenRecord) :
    Except PyErr (Nat × AttrCounts) := do
  let arweave_data ← match alookup "arweave" data_dict with
    | some a => Except.ok a
    | none => Except.error PyErr.keyError
  let attributesOpt ← pyGet arweave_data "attributes"
  match attributesOpt with
  | some (Json.arr attrs) =>
      if attrs.isEmpty then pure state
      else do
        let counts' ← process_attributes state.2 attrs
        pure (state.1 + 1, counts')
  | some v => if truthy v then Except.error PyErr.typeError else pure state
  | none => pure state

/-- Loop of attribute_distribution over all records, accumulating the count
of tokens with attributes and the nested trait counters. -/
def attribute_distribution_loop (state : Nat × AttrCounts) :
    TokenMap → Except PyErr (Nat × AttrCounts)
  | [] => .ok state
  | td :: rest => do
      let state' ← process_record state td.2
      attribute_distribution_loop state' rest

/-- Totals built by the loop of attribute_distribution, before the result is
handed to print_trait_frequency: the tokens-with-metadata denominator and
the nested per-trait-type counters. -/
def attribute_distribution_attempt (all_token_data : TokenMap) :
    Except PyErr (Nat × AttrCounts) :=
  attribute_distribution_loop (0, []) all_token_data

/-- Known marketplace escrow wallets, constant MARKETPLACE_WALLETS of the
source, mapping wallet address to marketplace label. -/
def MARKETPLACE_WALLETS : List (String × String) :=
  [("GUfCR9mK6azb9vcpsxgXyj7XRPAKJd4KMHTTVvtncGgp", "MagicEden"),
   ("3D49QorJyNaL4rcpiynbuS3pRH4Y7EXEM6v6ZGaqfFGK", "Solanart"),
   ("4pUQS4Jo2dsfWzt3VgHXy3H6RYnEDd11oWPiaM2rdAPw", "AlphaArt"),
   ("F4ghBzHFNgJxV4wEQDchU5i7n4XWWMBSaq7CuswGiVsr", "DigitalEyes")]

/-- Comparison used by sorted on the value-key tuples of
sort_dict_by_values: Python tuple order, count first and address second. -/
def tuple_le (a b : Nat × String) : Bool :=
  if a.1 < b.1 then true
  else if a.1 = b.1 then decide (a.2 ≤ b.2)
  else false

/-- Stable insertion of an element into a sorted list: the element goes
before the first entry it compares less-or-equal to. -/
def insert_le {α : Type} (le : α → α → Bool) (x : α) : List α → List α
  | [] => [x]
  | y :: ys => if le x y then x :: y :: ys else y :: insert_le le x ys

/-- Stable ascending sort.  Python's sorted is a stable sort, and all stable
sorts for a given total preorder compute the same list, so insertion sort is
an exact model of it. -/
def insertion_sort {α : Type} (le : α → α → Bool) : List α → List α
  | [] => []
  | x :: xs => insert_le le x (insertion_sort le xs)

/-- Function sort_dict_by_values of the source: flip the dict into value-key
tuples, run sorted over them (reverse reverses the comparison, which for a
totally ordered list of tuples equals reversing the sorted list), and
rebuild a dict in that order. -/
def sort_dict_by_values (dictionary : List (String × Nat)) (reverse : Bool) :
    List (String × Nat) :=
  let holder_list := insertion_sort tuple_le (dictionary.map fun kv => (kv.2, kv.1))
  let holder_list := if reverse then holder_list.reverse else holder_list
  holder_list.map fun vk => (vk.2, vk.1)

/-- Function print_biggest_holders of the source, with printing abstracted
into the data it displays: the total line, then one line per address in the
order of sort_dict_by_values with reverse set, carrying the count and the
marketplace label suffix when the address is a marketplace wallet. -/
def print_biggest_holders (tokens_total : Nat) (counts : List (String × Nat)) :
    Nat × List (String × Nat × Option String) :=
  let sorted_counts := sort_dict_by_values counts true
  (tokens_total, sorted_counts.map fun hc => (hc.1, hc.2, alookup hc.1 MARKETPLACE_WALLETS))

/-- Addresses of a counter dict as strings: sorting the value-key tuples in
print_biggest_holders compares addresses of equal count, which requires the
keys to be mutually comparable; the model requires string keys, the only
case the program exercises. -/
def string_keys : List (Json × Nat) → Except PyErr (List (String × Nat))
  | [] => .ok []
  | (Json.str s, c) :: rest => do
      let r ← string_keys rest
      pure ((s, c) :: r)
  | _ => .error .typeError

/-- Function holder_counts of the source: build the per-address counter dict
over all records, then hand it with the map size to print_biggest_holders. -/
def holder_counts (all_token_data : TokenMap) :
    Except PyErr (Nat × List (String × Nat × Option String)) := do
  let counts ← holder_counts_attempt all_token_data
  let countsStr ← string_keys counts
  pure (print_biggest_holders all_token_data.length countsStr)

/-- Python str.find for a single character: index of the first occurrence in
the character list, or minus one when absent. -/
def pyFind (cs : List Char) (c : Char) : Int :=
  match cs with
  | [] => -1
  | c' :: rest =>
      if c' = c then 0
      else
        let r := pyFind rest c
        if r = -1 then -1 else r + 1

/-- One row appended to token_csv_data by holder_snapshot, in column order:
Number, TokenName, Token, HolderAddress, TotalHeld. -/
structure SnapshotRow where
  number : String
  token_name : String
  token : String
  holder_address : Json
  total_held : Option Json

/-- Loop body of holder_snapshot for one record: read holders and account
(KeyError when absent), resolve the holder address with the UNKNOWN_ADDRESS
fallback exactly as holder_counts does, read the token name (the slice and
find calls require a string), compute the Number column as the slice of the
name starting one past str.find of the hash character, and read the held
amount through chained gets (a missing tokenAmount makes the last get raise
AttributeError). -/
def snapshot_row (token : String) (data_dict : TokenRecord) : Except PyErr SnapshotRow := do
  let token_holders ← match alookup "holders" data_dict with
    | some h => Except.ok h
    | none => Except.error PyErr.keyError
  let account_data ← match alookup "account" data_dict with
    | some a => Except.ok a
    | none => Except.error PyErr.keyError
  let infoOpt ← pyGet token_holders "info"
  let ownerOpt ← match infoOpt with
    | none => Except.error PyErr.attributeError
    | some infoVal => pyGet infoVal "owner"
  let holder_address := match ownerOpt with
    | some v => if truthy v then v else Json.str "UNKNOWN_ADDRESS"
    | none => Json.str "UNKNOWN_ADDRESS"
  let dataOpt ← pyGet account_data "data"
  let nameOpt ← match dataOpt with
    | none => Except.error PyErr.attributeError
    | some dataVal => pyGet dataVal "name"
  let token_name ← match nameOpt with
    | some (Json.str s) => Except.ok s
    | _ => Except.error PyErr.attributeError
  let tokenAmountOpt ← match infoOpt with
    | none => Except.error PyErr.attributeError
    | some infoVal => pyGet infoVal "tokenAmount"
  let amountOpt ← match tokenAmountOpt with
    | none => Except.error PyErr.attributeError
    | some ta => pyGet ta "amount"
  let number := String.mk ((token_name.toList).drop (pyFind token_name.toList '#' + 1).toNat)
  pure ⟨number, token_name, token, holder_address, amountOpt⟩

/-- Row-building loop of holder_snapshot over all records, in map order (the
pandas DataFrame and CSV write are external collaborators). -/
def holder_snapshot_attempt : TokenMap → Except PyErr (List SnapshotRow)
  | [] => .ok []
  | td :: rest => do
      let row ← snapshot_row td.1 td.2
      let rows ← holder_snapshot_attempt rest
      pure (row :: rows)

/-- Whether an Except outcome is a raised exception. -/
def isFailure {α : Type} : Except PyErr α → Bool
  | .error _ => true
  | .ok _ => false

/-- JSON document that json.dump serialises for a token map: an object with
one member per token, in map order. -/
def encodeTokenMap (m : TokenMap) : Json :=
  Json.obj (m.map fun td => (td.1, Json.obj td.2))

/-- Keys of a JSON object, in order (empty for non-objects). -/
def jsonKeys : Json → List String
  | .obj fields => fields.map Prod.fst
  | _ => []

/-- Attributes list of a record as attribute_distribution iterates it: the
attributes member of the arweave field when that member is a JSON list, and
empty otherwise. -/
def recordAttrList (r : TokenRecord) : List Json :=
  match alookup "arweave" r with
  | some (Json.obj aw) =>
      match alookup "attributes" aw with
      | some (Json.arr attrs) => attrs
      | _ => []
  | _ => []

/-- Whether a record contributes to the tokens-with-metadata denominator of
attribute_distribution: its attributes list is nonempty. -/
def recordCounted (r : TokenRecord) : Bool :=
  !(recordAttrList r).isEmpty

/-- Trait type member of an attribute entry, when the entry is an object. -/
def attrTraitType (a : Json) : Option Json :=
  match a with
  | .obj fields => alookup "trait_type" fields
  | _ => none

/-- Whether an attribute entry carries the given trait type. -/
def attrHasTrait (t : Json) (a : Json) : Bool :=
  match attrTraitType a with
  | some tt => jsonBeq tt t
  | none => false

/-- Number of attribute entries of a record carrying the given trait type,
counted over the attributes list that attribute_distribution iterates. -/
def recordTraitEntries (r : TokenRecord) (t : Json) : Nat :=
  (recordAttrList r).countP (attrHasTrait t)

/-- Total of the counts in one per-value counter dict. -/
def sumVals : List (Json × Nat) → Nat
  | [] => 0
  | p :: rest => p.2 + sumVals rest

/-- Total of the value counts recorded under a trait type in the nested
counters (summing every bucket whose key equals the trait type). -/
def sumTrait : AttrCounts → Json → Nat
  | [], _ => 0
  | b :: rest, t => (if jsonBeq b.1 t then sumVals b.2 else 0) + sumTrait rest t

/-- Strict descending order of the biggest-holders report lines: earlier
lines have strictly greater count, or equal count and strictly greater
address (the tie-break of the value-key tuple sort). -/
def strictDescLex (a b : String × Nat × Option String) : Prop :=
  b.2.1 < a.2.1 ∨ (b.2.1 = a.2.1 ∧ b.1 < a.1)

mutual

theorem jsonBeq_iff : ∀ a b, jsonBeq a b = true ↔ a = b
  | .null, .null => by simp [jsonBeq]
  | .bool _, .bool _ => by simp [jsonBeq]
  | .num _, .num _ => by simp [jsonBeq]
  | .str _, .str _ => by simp [jsonBeq]
  | .arr xs, .arr ys => by simp [jsonBeq, jsonBeqList_iff xs ys]
  | .obj xs, .obj ys => by simp [jsonBeq, jsonBeqObj_iff xs ys]
  | .null, .bool _ | .null, .num _ | .null, .str _ | .null, .arr _ | .null, .obj _ => by
      simp [jsonBeq]
  | .bool _, .null | .bool _, .num _ | .bool _, .str _ | .bool _, .arr _ | .bool _, .obj _ => by
      simp [jsonBeq]
  | .num _, .null | .num _, .bool _ | .num _, .str _ | .num _, .arr _ | .num _, .obj _ => by
      simp [jsonBeq]
  | .str _, .null | .str _, .bool _ | .str _, .num _ | .str _, .arr _ | .str _, .obj _ => by
      simp [jsonBeq]
  | .arr _, .null | .arr _, .bool _ | .arr _, .num _ | .arr _, .str _ | .arr _, .obj _ => by
      simp [jsonBeq]
  | .obj _, .null | .obj _, .bool _ | .obj _, .num _ | .obj _, .str _ | .obj _, .arr _ => by
      simp [jsonBeq]

theorem jsonBeqList_iff : ∀ xs ys, jsonBeqList xs ys = true ↔ xs = ys
  | [], [] => by simp [jsonBeqList]
  | x :: xs, y :: ys => by simp [jsonBeqList, jsonBeq_iff x y, jsonBeqList_iff xs ys]
  | [], _ :: _ => by simp [jsonBeqList]
  | _ :: _, [] => by simp [jsonBeqList]

theorem jsonBeqObj_iff : ∀ xs ys, jsonBeqObj xs ys = true ↔ xs = ys
  | [], [] => by simp [jsonBeqObj]
  | (k, v) :: xs, (l, w) :: ys => by
      simp [jsonBeqObj, jsonBeq_iff v w, jsonBeqObj_iff xs ys, Prod.ext_iff, and_assoc]
  | [], _ :: _ => by simp [jsonBeqObj]
  | _ :: _, [] => by simp [jsonBeqObj]

end

theorem jsonBeq_refl (a : Json) : jsonBeq a a = true :=
  (jsonBeq_iff a a).mpr rfl

theorem alookup_aset_self {α : Type} (l : List (String × α)) (k : String) (v : α) :
    alookup k (aset l k v) = some v := by
  induction l with
  | nil => simp [aset, alookup]
  | cons p rest ih =>
      by_cases h : p.1 = k
      · simp [aset, alookup, h]
      · simp [aset, alookup, h, ih]

theorem alookup_aset_ne {α : Type} (l : List (String × α)) (k k' : String) (v : α)
    (h : k' ≠ k) : alookup k' (aset l k v) = alookup k' l := by
  have hks : ¬k = k' := fun hh => h hh.symm
  induction l with
  | nil => simp [aset, alookup, hks]
  | cons p rest ih =>
      by_cases hp : p.1 = k
      · simp [aset, alookup, hp, hks]
      · by_cases hp' : p.1 = k'
        · simp [aset, alookup, hp, hp', h]
        · simp [aset, alookup, hp, hp', ih]

theorem pending_mem (field : String) (m : TokenMap) (t : String) :
    t ∈ pending field m ↔ ∃ r, (t, r) ∈ m ∧ getIsNone r field = true := by
  simp only [pending, List.mem_map, List.mem_filter]
  constructor
  · rintro ⟨⟨t', r⟩, ⟨hm, hp⟩, rfl⟩
    exact ⟨r, hm, hp⟩
  · rintro ⟨r, hm, hp⟩
    exact ⟨(t, r), ⟨hm, hp⟩, rfl⟩

theorem pending_eq_nil (field : String) (m : TokenMap)
    (h : ∀ td ∈ m, getIsNone td.2 field = false) : pending field m = [] := by
  simp only [pending, List.map_eq_nil_iff]
  rw [List.filter_eq_nil_iff]
  intro td hm
  simp [h td hm]

theorem run_tasks_error (task : String → TokenRecord → Except PyErr TokenRecord) :
    ∀ (ts : List String) (m : TokenMap), ts.Nodup →
      (∃ t ∈ ts, ∃ r, alookup t m = some r ∧ isFailure (task t r) = true) →
      ∃ e, run_tasks task m ts = .error e := by
  intro ts
  induction ts with
  | nil => rintro m _ ⟨t, ht, _⟩; cases ht
  | cons t rest ih =>
      rintro m hnd ⟨t0, ht0, r0, hl0, hf0⟩
      rcases List.nodup_cons.mp hnd with ⟨hnotin, hndrest⟩
      cases hm : alookup t m with
      | none =>
          have ht0' : t0 ∈ rest := by
            rcases List.mem_cons.mp ht0 with rfl | h
            · rw [hm] at hl0; cases hl0
            · exact h
          rcases ih m hndrest ⟨t0, ht0', r0, hl0, hf0⟩ with ⟨e, he⟩
          exact ⟨e, by simp [run_tasks, hm, he]⟩
      | some r =>
          cases htask : task t r with
          | error e => exact ⟨e, by simp [run_tasks, hm, htask]⟩
          | ok r' =>
              have ht0' : t0 ∈ rest := by
                rcases List.mem_cons.mp ht0 with rfl | h
                · rw [hm] at hl0
                  cases hl0
                  rw [htask] at hf0
                  simp [isFailure] at hf0
                · exact h
              have hne : t0 ≠ t := fun hh => hnotin (hh ▸ ht0')
              rcases ih (aset m t r') hndrest
                  ⟨t0, ht0', r0, by rw [alookup_aset_ne m t t0 r' hne]; exact hl0, hf0⟩
                with ⟨e, he⟩
              exact ⟨e, by simp [run_tasks, hm, htask, he]⟩

/-- Claim C1 counterexample: a one-token map whose single launched holder
fetch task raises.  The phase returns the exception instead of continuing,
and the list of maps passed to save_request_cache is empty, so the token map
is not persisted at the end of the phase, contradicting the claim that
sibling work continues, the run continues and the full map is still saved. -/
theorem c1_counterexample :
    populate_holders_details_async (fun _ _ => .error PyErr.keyError)
      [("t1", [("token", Json.str "t1")])]
      = (.error PyErr.keyError, []) := rfl

/-- Claim C1, amended: in both enrichment phases, when one launched fetch
task raises an unhandled exception, the awaiting loop re-raises it out of
asyncio.run: the phase returns the exception instead of a map, and no save
of the token map happens in that phase (the saves after the awaiting loop
are skipped), so the failure aborts the run rather than being isolated. -/
theorem c1_phase_failure_aborts_without_save :
    (∀ (fetch_task : String → TokenRecord → Except PyErr TokenRecord) (m : TokenMap),
      (pending "holders" m).Nodup →
      (∃ t ∈ pending "holders" m, ∃ r, alookup t m = some r ∧
          isFailure (fetch_task t r) = true) →
      ∃ e, populate_holders_details_async fetch_task m = (.error e, []))
    ∧ (∀ (fetch_account : Json → Except PyErr Json) (http : String → List HttpResponse)
        (m : TokenMap),
      (pending "account" m).Nodup →
      (∃ t ∈ pending "account" m, ∃ r, alookup t m = some r ∧
          isFailure (get_account_info_from_solana_async fetch_account r) = true) →
      ∃ e, populate_account_details_async fetch_account http m = (.error e, [])) := by
  constructor
  · intro fetch_task m hnd hex
    rcases run_tasks_error fetch_task (pending "holders" m) m hnd hex with ⟨e, he⟩
    exact ⟨e, by simp [populate_holders_details_async, he]⟩
  · intro fetch_account http m hnd hex
    rcases run_tasks_error (fun _ r => get_account_info_from_solana_async fetch_account r)
        (pending "account" m) m hnd hex with ⟨e, he⟩
    exact ⟨e, by simp [populate_account_details_async, he]⟩

/-- Claim C1 witness: both parts of the amended claim applied to concrete
one-token maps whose launched fetch task raises. -/
theorem c1_phase_failure_aborts_without_save_witness :
    (∃ e, populate_holders_details_async (fun _ _ => .error PyErr.attributeError)
        [("t1", [("token", Json.str "t1")])] = (.error e, []))
    ∧ (∃ e, populate_account_details_async (fun _ => .error PyErr.attributeError)
        (fun _ => []) [("t1", [("token", Json.str "t1")])] = (.error e, [])) :=
  ⟨c1_phase_failure_aborts_without_save.1 _ _ (by decide)
      ⟨"t1", by decide, [("token", Json.str "t1")], rfl, rfl⟩,
   c1_phase_failure_aborts_without_save.2 _ _ _ (by decide)
      ⟨"t1", by decide, [("token", Json.str "t1")], rfl, rfl⟩⟩

/-- Claim C2 counterexample: a record whose holders field is present but
bound to JSON null.  The field is present, yet the selection loop still
launches a task for the token, because the source tests get(field) is None,
which does not distinguish a null value from an absent field. -/
theorem c2_counterexample :
    pending "holders" [("t1", [("token", Json.str "t1"), ("holders", Json.null)])] = ["t1"]
    ∧ alookup "holders" [("token", Json.str "t1"), ("holders", Json.null)]
        = some Json.null :=
  ⟨rfl, rfl⟩

/-- Claim C2, amended: each phase launches a fetch task for a record exactly
when the target field is absent or present with value null (the get-is-None
test); any other present value, including empty or falsy ones such as the
empty object, is not refetched.  Consequently a second run of a phase over a
map whose relevant fields are all present and non-null launches no tasks,
leaves every record unchanged, and persists the unchanged map. -/
theorem c2_selection_iff_get_is_none :
    (∀ (field : String) (m : TokenMap) (t : String),
      t ∈ pending field m ↔ ∃ r, (t, r) ∈ m ∧ getIsNone r field = true)
    ∧ (∀ (fetch_task : String → TokenRecord → Except PyErr TokenRecord) (m : TokenMap),
      (∀ td ∈ m, getIsNone td.2 "holders" = false) →
      populate_holders_details_async fetch_task m = (.ok m, [m, m]))
    ∧ (∀ (fetch_account : Json → Except PyErr Json) (http : String → List HttpResponse)
        (m : TokenMap),
      (∀ td ∈ m, getIsNone td.2 "account" = false ∧ getIsNone td.2 "arweave" = false) →
      populate_account_details_async fetch_account http m = (.ok m, [m, m, m])) := by
  refine ⟨pending_mem, ?_, ?_⟩
  · intro fetch_task m h
    have hp := pending_eq_nil "holders" m h
    simp [populate_holders_details_async, hp, run_tasks]
  · intro fetch_account http m h
    have hp1 := pending_eq_nil "account" m fun td hm => (h td hm).1
    have hp2 := pending_eq_nil "arweave" m fun td hm => (h td hm).2
    simp [populate_account_details_async, hp1, hp2, run_tasks]

/-- Claim C2 witness: over a fully populated one-token map both phases
launch no task, return the map unchanged, and save it as is; and the
selection test of part one evaluated at that map selects nothing. -/
theorem c2_selection_iff_get_is_none_witness :
    populate_holders_details_async (fun _ _ => .error PyErr.keyError)
        [("t1", [("token", Json.str "t1"), ("holders", Json.obj []),
                 ("account", Json.obj []), ("arweave", Json.obj [])])]
      = (.ok [("t1", [("token", Json.str "t1"), ("holders", Json.obj []),
                 ("account", Json.obj []), ("arweave", Json.obj [])])],
         [[("t1", [("token", Json.str "t1"), ("holders", Json.obj []),
                 ("account", Json.obj []), ("arweave", Json.obj [])])],
          [("t1", [("token", Json.str "t1"), ("holders", Json.obj []),
                 ("account", Json.obj []), ("arweave", Json.obj [])])]]) :=
  c2_selection_iff_get_is_none.2.1 _ _ (by decide)

/-- Claim C3: saving a token map under a cache key and loading the same key
back yields exactly the document that was saved, hence a map with the same
token keys in the same order, the same present fields per record and equal
values (the filesystem stores the parsed JSON document, so Python's
serialisation coercions are the identity here). -/
theorem c3_save_load_roundtrip :
    ∀ (cache_file_key : String) (m : TokenMap) (fs : FS),
      load_request_cache cache_file_key
          (save_request_cache cache_file_key (encodeTokenMap m) fs true) true
        = encodeTokenMap m
      ∧ jsonKeys (load_request_cache cache_file_key
          (save_request_cache cache_file_key (encodeTokenMap m) fs true) true)
        = m.map Prod.fst := by
  intro cache_file_key m fs
  have hload : load_request_cache cache_file_key
      (save_request_cache cache_file_key (encodeTokenMap m) fs true) true
      = encodeTokenMap m := by
    simp [save_request_cache, save_request_cache_attempt, load_request_cache,
      load_request_cache_attempt, alookup_aset_self]
  refine ⟨hload, ?_⟩
  rw [hload]
  simp [encodeTokenMap, jsonKeys]

/-- Claim C7: the except clauses of the cache functions catch every failure
of the underlying I/O and parsing: whenever the body of load_request_cache
raises (missing file, I/O error or JSON parse error), the function returns
the empty map instead of raising, and whenever the body of
save_request_cache raises, the function leaves the filesystem untouched
instead of raising; neither function has a raising path. -/
theorem c7_cache_failures_degrade_and_never_raise :
    ∀ (key : String) (fs : FS) (ioOk : Bool) (data : Json) (fs2 : FS) (ioOk2 : Bool),
      (isFailure (load_request_cache_attempt key fs ioOk) = true →
        load_request_cache key fs ioOk = Json.obj [])
      ∧ (isFailure (save_request_cache_attempt key data fs2 ioOk2) = true →
        save_request_cache key data fs2 ioOk2 = fs2) := by
  intro key fs ioOk data fs2 ioOk2
  constructor
  · intro h
    unfold load_request_cache
    cases hatt : load_request_cache_attempt key fs ioOk with
    | ok j => rw [hatt] at h; simp [isFailure] at h
    | error e => rfl
  · intro h
    unfold save_request_cache
    cases hatt : save_request_cache_attempt key data fs2 ioOk2 with
    | ok fs' => rw [hatt] at h; simp [isFailure] at h
    | error e => rfl

/-- Claim C7 witness: with failing I/O, loading yields the empty map and
saving returns the filesystem unchanged. -/
theorem c7_cache_failures_degrade_and_never_raise_witness :
    load_request_cache "tokens.txt" ⟨[]⟩ false = Json.obj []
    ∧ save_request_cache "tokens.txt" Json.null ⟨[]⟩ false = ⟨[]⟩ :=
  ⟨(c7_cache_failures_degrade_and_never_raise "tokens.txt" ⟨[]⟩ false Json.null ⟨[]⟩ false).1 rfl,
   (c7_cache_failures_degrade_and_never_raise "tokens.txt" ⟨[]⟩ false Json.null ⟨[]⟩ false).2 rfl⟩

/-- Claim C4 counterexample: a record whose uri answers with status 500 and
a JSON error body.  The metadata fetcher stores that error body in the
arweave field, not the empty object the claim requires: after logging, the
source still parses and returns the failed response's body. -/
theorem c4_counterexample :
    get_arweave_metadata
        [("token", Json.str "t"),
         ("account", Json.obj [("data", Json.obj [("uri", Json.str "u")])])]
        (fun _ => [⟨500, .ok (Json.obj [("error", Json.str "server error")])⟩])
      = .ok ([("token", Json.str "t"),
              ("account", Json.obj [("data", Json.obj [("uri", Json.str "u")])]),
              ("arweave", Json.obj [("error", Json.str "server error")])], ["u"])
    ∧ Json.obj [("error", Json.str "server error")] ≠ Json.obj [] :=
  ⟨rfl, by simp⟩

/-- Claim C4, amended: on a status that is neither 200 nor 429 the failure
is logged and no retry happens (exactly one request is issued), but the
response is then handled like a success: its body is parsed and returned,
so the arweave field receives the error response's JSON body (or the task
raises when that body is not JSON); the empty object is not stored. -/
theorem c4_non200_non429_logs_no_retry_returns_body :
    ∀ (url : String) (resp : HttpResponse) (later : List HttpResponse),
      resp.status ≠ 200 → resp.status ≠ 429 →
      async_http_request url (resp :: later) = (resp.body, [url]) := by
  intro url resp later h200 h429
  simp [async_http_request, h200, h429]

/-- Claim C4 witness: a 500 response with a JSON body is returned as is
after one request. -/
theorem c4_non200_non429_logs_no_retry_returns_body_witness :
    async_http_request "u" [⟨500, .ok Json.null⟩, ⟨200, .ok (Json.str "later")⟩]
      = (.ok Json.null, ["u"]) :=
  c4_non200_non429_logs_no_retry_returns_body "u" ⟨500, .ok Json.null⟩
    [⟨200, .ok (Json.str "later")⟩] (by decide) (by decide)

/-- Claim C5: a rate-limited response makes async_http_request sleep and
reissue the same url, recursively and without any retry cap: any number n of
429 responses followed by a 200 yields the 200 body after exactly n + 1
requests to the url.  In particular, for a record with a present uri and a
script of one 429 then a 200 with a JSON body, the arweave field receives
exactly that body and exactly one retry occurs (the url is requested twice). -/
theorem c5_429_retries_same_url_unbounded :
    (∀ (url : String) (n : Nat) (e b : Except PyErr Json),
      async_http_request url (List.replicate n ⟨429, e⟩ ++ [⟨200, b⟩])
        = (b, List.replicate (n + 1) url))
    ∧ (∀ (t u : String) (b : Json) (e : Except PyErr Json), u ≠ "" →
      get_arweave_metadata
          [("token", Json.str t),
           ("account", Json.obj [("data", Json.obj [("uri", Json.str u)])])]
          (fun v => if v = u then [⟨429, e⟩, ⟨200, .ok b⟩] else [])
        = .ok ([("token", Json.str t),
                ("account", Json.obj [("data", Json.obj [("uri", Json.str u)])]),
                ("arweave", b)], [u, u])) := by
  constructor
  · intro url n e b
    induction n with
    | zero => simp [async_http_request]
    | succ n ih => simp [List.replicate_succ, async_http_request, ih]
  · intro t u b e hu
    simp [get_arweave_metadata, alookup, pySubscr, pyGet, getIsNone, aset,
      async_http_request, hu, Bind.bind, Except.bind, Pure.pure, Except.pure]

/-- Claim C5 witness: both parts at a concrete url, body and record; the
script answers 429 once and then 200, and the body lands in the arweave
field after two requests. -/
theorem c5_429_retries_same_url_unbounded_witness :
    async_http_request "u" (List.replicate 1 ⟨429, .ok Json.null⟩ ++ [⟨200, .ok (Json.str "b")⟩])
        = (.ok (Json.str "b"), List.replicate 2 "u")
    ∧ get_arweave_metadata
          [("token", Json.str "t"),
           ("account", Json.obj [("data", Json.obj [("uri", Json.str "u")])])]
          (fun v => if v = "u" then [⟨429, .ok Json.null⟩, ⟨200, .ok (Json.str "b")⟩] else [])
        = .ok ([("token", Json.str "t"),
                ("account", Json.obj [("data", Json.obj [("uri", Json.str "u")])]),
                ("arweave", Json.str "b")], ["u", "u"]) :=
  ⟨c5_429_retries_same_url_unbounded.1 "u" 1 (.ok Json.null) (.ok (Json.str "b")),
   c5_429_retries_same_url_unbounded.2 "t" "u" (Json.str "b") (.ok Json.null) (by decide)⟩

/-- Claim C6 counterexample: a record whose holder lookup stored an empty
dict (malformed data with no info member).  The holder-count aggregator
raises AttributeError on the chained get calls instead of recording the
UNKNOWN_ADDRESS sentinel, so such a token is not counted and the aggregation
crashes. -/
theorem c6_counterexample :
    holder_counts_attempt [("t", [("token", Json.str "t"), ("holders", Json.obj [])])]
      = .error PyErr.attributeError := rfl

/-- Claim C6, amended: the UNKNOWN_ADDRESS sentinel protects only against a
missing or falsy owner member inside a present info dict: when the holders
field holds a dict whose info member is a dict with owner absent or falsy,
the aggregator records the sentinel and still counts the token; but when
info itself is missing or not a dict, the chained get calls raise
AttributeError and the aggregation crashes. -/
theorem c6_sentinel_only_when_info_present :
    ∀ (t : String) (info : List (String × Json)),
      (∀ v, alookup "owner" info = some v → truthy v = false) →
      holder_counts_attempt
          [(t, [("token", Json.str t), ("holders", Json.obj [("info", Json.obj info)])])]
        = .ok [(Json.str "UNKNOWN_ADDRESS", 1)] := by
  intro t info h
  cases howner : alookup "owner" info with
  | none =>
      simp [holder_counts_attempt, holder_counts_loop, holder_counts_step, pyGet,
        alookup, howner, hashable, dictIncr, Bind.bind, Except.bind, Pure.pure, Except.pure]
  | some v =>
      have hv : truthy v = false := h v howner
      simp [holder_counts_attempt, holder_counts_loop, holder_counts_step, pyGet,
        alookup, howner, hv, hashable, dictIncr, Bind.bind, Except.bind, Pure.pure, Except.pure]

/-- Claim C6 witness: a record whose info dict carries an empty-string owner
is counted under the sentinel. -/
theorem c6_sentinel_only_when_info_present_witness :
    holder_counts_attempt
        [("t", [("token", Json.str "t"),
          ("holders", Json.obj [("info", Json.obj [("owner", Json.str "")])])])]
      = .ok [(Json.str "UNKNOWN_ADDRESS", 1)] :=
  c6_sentinel_only_when_info_present "t" [("owner", Json.str "")]
    (fun v hv => by
      rw [show alookup "owner" [("owner", Json.str "")] = some (Json.str "") from rfl] at hv
      cases hv
      rfl)

theorem pyFind_eq_neg_one (cs : List Char) (c : Char) (h : c ∉ cs) : pyFind cs c = -1 := by
  induction cs with
  | nil => rfl
  | cons x rest ih =>
      have h1 : ¬x = c := fun hh => h (hh ▸ List.mem_cons_self x rest)
      have h2 : c ∉ rest := fun hh => h (List.mem_cons_of_mem _ hh)
      simp [pyFind, h1, ih h2]

theorem pyFind_append (pre post : List Char) (c : Char) (h : c ∉ pre) :
    pyFind (pre ++ c :: post) c = (pre.length : Int) := by
  induction pre with
  | nil => simp [pyFind]
  | cons x rest ih =>
      have h1 : ¬x = c := fun hh => h (hh ▸ List.mem_cons_self x rest)
      have h2 : c ∉ rest := fun hh => h (List.mem_cons_of_mem _ hh)
      have ihh := ih h2
      have hne : pyFind (rest ++ c :: post) c ≠ -1 := by rw [ihh]; omega
      simp [pyFind, h1, ihh, hne]

theorem drop_append_cons (pre post : List Char) (c : Char) :
    (pre ++ c :: post).drop (pre.length + 1) = post := by
  have hsplit : pre ++ c :: post = (pre ++ [c]) ++ post := by simp
  have hlen : (pre ++ [c]).length = pre.length + 1 := by simp
  rw [hsplit, ← hlen, List.drop_left]

theorem string_toList_inj (s t : String) (h : s.toList = t.toList) : s = t := by
  cases s
  cases t
  simp [String.toList] at h
  rw [h]

theorem snapshot_row_number (token : String) (r : TokenRecord) (row : SnapshotRow)
    (h : snapshot_row token r = .ok row) :
    row.number.toList
      = (row.token_name.toList).drop (pyFind row.token_name.toList '#' + 1).toNat := by
  unfold snapshot_row at h
  simp only [Bind.bind, Except.bind, Pure.pure, Except.pure] at h
  cases h1 : alookup "holders" r with
  | none => simp only [h1] at h; exact Except.noConfusion h
  | some token_holders =>
  simp only [h1] at h
  cases h2 : alookup "account" r with
  | none => simp only [h2] at h; exact Except.noConfusion h
  | some account_data =>
  simp only [h2] at h
  cases h3 : pyGet token_holders "info" with
  | error e => simp only [h3] at h; exact Except.noConfusion h
  | ok infoOpt =>
  simp only [h3] at h
  cases infoOpt with
  | none => simp at h
  | some infoVal =>
  cases h4 : pyGet infoVal "owner" with
  | error e => simp only [h4] at h; exact Except.noConfusion h
  | ok ownerOpt =>
  simp only [h4] at h
  cases h5 : pyGet account_data "data" with
  | error e => simp only [h5] at h; exact Except.noConfusion h
  | ok dataOpt =>
  simp only [h5] at h
  cases dataOpt with
  | none => simp at h
  | some dataVal =>
  cases h6 : pyGet dataVal "name" with
  | error e => simp only [h6] at h; exact Except.noConfusion h
  | ok nameOpt =>
  simp only [h6] at h
  cases nameOpt with
  | none => simp at h
  | some nameVal =>
  cases nameVal <;> try simp at h
  case str s =>
  cases h7 : pyGet infoVal "tokenAmount" with
  | error e => simp only [h7] at h; exact Except.noConfusion h
  | ok taOpt =>
  simp only [h7] at h
  cases taOpt with
  | none => simp at h
  | some ta =>
  cases h8 : pyGet ta "amount" with
  | error e => simp only [h8] at h; exact Except.noConfusion h
  | ok amountOpt =>
  simp only [h8] at h
  injection h with h
  subst h
  simp [String.toList]

/-- Claim C10: in every row of the CSV snapshot, the Number column is the
slice of the token name starting one position past str.find of the hash
character: when the name contains a hash, Number is exactly the substring
strictly after the first hash; when it contains none, find returns minus
one, the slice starts at index zero, and Number equals the whole name. -/
theorem c10_number_column :
    ∀ (m : TokenMap) (rows : List SnapshotRow),
      holder_snapshot_attempt m = .ok rows →
      ∀ row ∈ rows,
        (('#' ∉ row.token_name.toList) → row.number = row.token_name)
        ∧ (∀ pre post, row.token_name.toList = pre ++ '#' :: post → '#' ∉ pre →
            row.number.toList = post) := by
  intro m
  induction m with
  | nil =>
      intro rows h row hrow
      simp [holder_snapshot_attempt] at h
      subst h
      cases hrow
  | cons td rest ih =>
      intro rows h row hrow
      simp only [holder_snapshot_attempt, Bind.bind, Except.bind, Pure.pure, Except.pure] at h
      cases hr : snapshot_row td.1 td.2 with
      | error e => simp only [hr] at h; exact Except.noConfusion h
      | ok row0 =>
      simp only [hr] at h
      cases hrest : holder_snapshot_attempt rest with
      | error e => simp only [hrest] at h; exact Except.noConfusion h
      | ok rows' =>
      simp only [hrest] at h
      injection h with h
      subst h
      rcases List.mem_cons.mp hrow with rfl | hmem
      · have hnum := snapshot_row_number td.1 td.2 row hr
        constructor
        · intro hnot
          have hfind := pyFind_eq_neg_one row.token_name.toList '#' hnot
          apply string_toList_inj
          rw [hnum, hfind]
          simp
        · intro pre post hsplit hpre
          rw [hnum, hsplit, pyFind_append pre post '#' hpre]
          have htn : ((pre.length : Int) + 1).toNat = pre.length + 1 := by omega
          rw [htn, drop_append_cons]
      · exact ih rows' hrest row hmem

/-- Claim C10 witness: for a snapshot over one record named Token hash 17,
the Number column of the produced row is the substring after the hash. -/
theorem c10_number_column_witness :
    (⟨"17", "Token #17", "tk", Json.str "w", some (Json.str "1")⟩ : SnapshotRow).number.toList
      = ['1', '7'] :=
  (c10_number_column
      [("tk", [("token", Json.str "tk"),
        ("holders", Json.obj [("info", Json.obj [("owner", Json.str "w"),
          ("tokenAmount", Json.obj [("amount", Json.str "1")])])]),
        ("account", Json.obj [("data", Json.obj [("name", Json.str "Token #17")])])])]
      [⟨"17", "Token #17", "tk", Json.str "w", some (Json.str "1")⟩] rfl
      ⟨"17", "Token #17", "tk", Json.str "w", some (Json.str "1")⟩ (by simp)).2
    ['T', 'o', 'k', 'e', 'n', ' '] ['1', '7'] rfl (by decide)

theorem mem_insert_le {α : Type} (le : α → α → Bool) (x y : α) :
    ∀ l : List α, y ∈ insert_le le x l ↔ y = x ∨ y ∈ l := by
  intro l
  induction l with
  | nil => simp [insert_le]
  | cons z zs ih =>
      by_cases h : le x z
      · simp [insert_le, h]
      · simp [insert_le, h, ih]
        tauto

theorem pairwise_insert_le {α : Type} (le : α → α → Bool)
    (htot : ∀ a b, le a b = false → le b a = true)
    (htrans : ∀ a b c, le a b = true → le b c = true → le a c = true) (x : α) :
    ∀ l : List α, l.Pairwise (fun a b => le a b = true) →
      (insert_le le x l).Pairwise (fun a b => le a b = true) := by
  intro l
  induction l with
  | nil => intro _; simp [insert_le]
  | cons z zs ih =>
      intro hp
      rcases List.pairwise_cons.mp hp with ⟨hz, hzs⟩
      by_cases h : le x z = true
      · simp only [insert_le, h, if_true]
        refine List.pairwise_cons.mpr ⟨?_, hp⟩
        intro b hb
        rcases List.mem_cons.mp hb with rfl | hbz
        · exact h
        · exact htrans x z b h (hz b hbz)
      · simp only [insert_le, h, if_false]
        refine List.pairwise_cons.mpr ⟨?_, ih hzs⟩
        intro b hb
        rcases (mem_insert_le le x b zs).mp hb with hbx | hbzs
        · rw [hbx]
          exact htot x z (by simpa using h)
        · exact hz b hbzs

theorem pairwise_insertion_sort {α : Type} (le : α → α → Bool)
    (htot : ∀ a b, le a b = false → le b a = true)
    (htrans : ∀ a b c, le a b = true → le b c = true → le a c = true) :
    ∀ l : List α, (insertion_sort le l).Pairwise (fun a b => le a b = true) := by
  intro l
  induction l with
  | nil => simp [insertion_sort]
  | cons x xs ih => exact pairwise_insert_le le htot htrans x _ ih

theorem insert_le_perm {α : Type} (le : α → α → Bool) (x : α) :
    ∀ l : List α, (insert_le le x l).Perm (x :: l) := by
  intro l
  induction l with
  | nil => exact List.Perm.refl _
  | cons z zs ih =>
      by_cases h : le x z
      · simp [insert_le, h]
      · simp only [insert_le, h, if_false]
        exact (ih.cons z).trans (List.Perm.swap x z zs)

theorem insertion_sort_perm {α : Type} (le : α → α → Bool) :
    ∀ l : List α, (insertion_sort le l).Perm l := by
  intro l
  induction l with
  | nil => exact List.Perm.refl _
  | cons x xs ih => exact (insert_le_perm le x _).trans (ih.cons x)

theorem tuple_le_iff (a b : Nat × String) :
    tuple_le a b = true ↔ (a.1 < b.1 ∨ (a.1 = b.1 ∧ a.2 ≤ b.2)) := by
  unfold tuple_le
  split_ifs with h1 h2
  · simp [h1]
  · simp [h1, h2]
  · simp [h1, h2]

theorem tuple_le_total (a b : Nat × String) (h : tuple_le a b = false) :
    tuple_le b a = true := by
  have hna : ¬(a.1 < b.1 ∨ (a.1 = b.1 ∧ a.2 ≤ b.2)) := by
    rw [← tuple_le_iff]; simp [h]
  push_neg at hna
  rw [tuple_le_iff]
  by_cases he : a.1 = b.1
  · exact Or.inr ⟨he.symm, le_of_lt (hna.2 he)⟩
  · exact Or.inl (by omega)

theorem tuple_le_trans (a b c : Nat × String) (hab : tuple_le a b = true)
    (hbc : tuple_le b c = true) : tuple_le a c = true := by
  rw [tuple_le_iff] at *
  rcases hab with h1 | ⟨h1, h1'⟩ <;> rcases hbc with h2 | ⟨h2, h2'⟩
  · exact Or.inl (by omega)
  · exact Or.inl (by omega)
  · exact Or.inl (by omega)
  · exact Or.inr ⟨by omega, le_trans h1' h2'⟩

theorem tuple_le_strict (a b : Nat × String) (hle : tuple_le b a = true) (hne : a ≠ b) :
    b.1 < a.1 ∨ (b.1 = a.1 ∧ b.2 < a.2) := by
  rw [tuple_le_iff] at hle
  rcases hle with h | ⟨h, h'⟩
  · exact Or.inl h
  · refine Or.inr ⟨h, lt_of_le_of_ne h' fun he => hne ?_⟩
    exact Prod.ext h.symm he.symm

/-- Claim C9: over any nonempty (indeed any) counter dict with distinct
addresses, the biggest-holders report lists addresses sorted strictly
descending by count with ties broken consistently by address (descending,
the order of the reversed value-key tuple sort), annotates exactly the
marketplace wallets with their labels, and lists every address of the input
once; and the concrete scenario with an unknown address A at 50 and three
marketplace wallets at 1, 2 and 4 puts A first, unlabeled, followed by the
marketplace wallets in descending count order, each labeled. -/
theorem c9_biggest_holders_sorted_and_labeled :
    (∀ (total : Nat) (counts : List (String × Nat)),
      (counts.map Prod.fst).Nodup →
      ((print_biggest_holders total counts).2.Pairwise strictDescLex
       ∧ (∀ e ∈ (print_biggest_holders total counts).2,
            e.2.2 = alookup e.1 MARKETPLACE_WALLETS)
       ∧ (((print_biggest_holders total counts).2.map fun e => (e.1, e.2.1)).Perm counts)))
    ∧ print_biggest_holders 300
        [("A", 50), ("3D49QorJyNaL4rcpiynbuS3pRH4Y7EXEM6v6ZGaqfFGK", 1),
         ("4pUQS4Jo2dsfWzt3VgHXy3H6RYnEDd11oWPiaM2rdAPw", 2),
         ("F4ghBzHFNgJxV4wEQDchU5i7n4XWWMBSaq7CuswGiVsr", 4)]
      = (300, [("A", 50, none),
         ("F4ghBzHFNgJxV4wEQDchU5i7n4XWWMBSaq7CuswGiVsr", 4, some "DigitalEyes"),
         ("4pUQS4Jo2dsfWzt3VgHXy3H6RYnEDd11oWPiaM2rdAPw", 2, some "AlphaArt"),
         ("3D49QorJyNaL4rcpiynbuS3pRH4Y7EXEM6v6ZGaqfFGK", 1, some "Solanart")]) := by
  constructor
  · intro total counts hnd
    have hout : (print_biggest_holders total counts).2
        = ((insertion_sort tuple_le (counts.map fun kv => (kv.2, kv.1))).reverse).map
            (fun vk => (vk.2, vk.1, alookup vk.2 MARKETPLACE_WALLETS)) := by
      simp [print_biggest_holders, sort_dict_by_values, List.map_map]
    have hsorted := pairwise_insertion_sort tuple_le tuple_le_total tuple_le_trans
      (counts.map fun kv => (kv.2, kv.1))
    have hperm := insertion_sort_perm tuple_le (counts.map fun kv => (kv.2, kv.1))
    have hnodup_counts : counts.Nodup := List.Nodup.of_map _ hnd
    have hnodup_pairs : (counts.map fun kv => (kv.2, kv.1)).Nodup := by
      refine List.Nodup.map ?_ hnodup_counts
      intro a b hab
      have h1 : a.2 = b.2 := congrArg Prod.fst hab
      have h2 : a.1 = b.1 := congrArg Prod.snd hab
      exact Prod.ext h2 h1
    have hnodup_sort : (insertion_sort tuple_le (counts.map fun kv => (kv.2, kv.1))).Nodup :=
      hperm.nodup_iff.mpr hnodup_pairs
    have hnodup_rev :
        ((insertion_sort tuple_le (counts.map fun kv => (kv.2, kv.1))).reverse).Nodup :=
      List.nodup_reverse.mpr hnodup_sort
    have hsorted_rev :
        ((insertion_sort tuple_le (counts.map fun kv => (kv.2, kv.1))).reverse).Pairwise
          (fun a b => tuple_le b a = true) :=
      List.pairwise_reverse.mpr hsorted
    have hstrict :
        ((insertion_sort tuple_le (counts.map fun kv => (kv.2, kv.1))).reverse).Pairwise
          (fun a b : Nat × String => b.1 < a.1 ∨ (b.1 = a.1 ∧ b.2 < a.2)) :=
      (hsorted_rev.and hnodup_rev).imp fun hab => tuple_le_strict _ _ hab.1 hab.2
    refine ⟨?_, ?_, ?_⟩
    · rw [hout, List.pairwise_map]
      exact hstrict
    · rw [hout]
      intro e he
      rcases List.mem_map.mp he with ⟨vk, hvk, rfl⟩
      rfl
    · rw [hout, List.map_map]
      have hcomp : ((fun e : String × Nat × Option String => (e.1, e.2.1)) ∘
          (fun vk : Nat × String => (vk.2, vk.1, alookup vk.2 MARKETPLACE_WALLETS)))
          = (fun vk : Nat × String => (vk.2, vk.1)) := rfl
      rw [hcomp]
      have h1 : ((insertion_sort tuple_le (counts.map fun kv => (kv.2, kv.1))).reverse).Perm
          (counts.map fun kv => (kv.2, kv.1)) :=
        (List.reverse_perm _).trans hperm
      have h2 := h1.map (fun vk : Nat × String => (vk.2, vk.1))
      rw [List.map_map] at h2
      have hid : ((fun vk : Nat × String => (vk.2, vk.1)) ∘
          (fun kv : String × Nat => (kv.2, kv.1))) = id := funext fun kv => rfl
      rw [hid, List.map_id] at h2
      exact h2
  · rfl

/-- Claim C9 witness: the general part applied to the scenario input, whose
addresses are distinct, yields a report in strictly descending order. -/
theorem c9_biggest_holders_sorted_and_labeled_witness :
    (print_biggest_holders 300
        [("A", 50), ("3D49QorJyNaL4rcpiynbuS3pRH4Y7EXEM6v6ZGaqfFGK", 1),
         ("4pUQS4Jo2dsfWzt3VgHXy3H6RYnEDd11oWPiaM2rdAPw", 2),
         ("F4ghBzHFNgJxV4wEQDchU5i7n4XWWMBSaq7CuswGiVsr", 4)]).2.Pairwise strictDescLex :=
  (c9_biggest_holders_sorted_and_labeled.1 300
    [("A", 50), ("3D49QorJyNaL4rcpiynbuS3pRH4Y7EXEM6v6ZGaqfFGK", 1),
     ("4pUQS4Jo2dsfWzt3VgHXy3H6RYnEDd11oWPiaM2rdAPw", 2),
     ("F4ghBzHFNgJxV4wEQDchU5i7n4XWWMBSaq7CuswGiVsr", 4)] (by decide)).1

theorem sumVals_dictIncr (inner : List (Json × Nat)) (v : Json) :
    sumVals (dictIncr inner v) = sumVals inner + 1 := by
  induction inner with
  | nil => rfl
  | cons p rest ih =>
      by_cases h : jsonBeq p.1 v
      · simp [dictIncr, h, sumVals]
        omega
      · simp [dictIncr, h, sumVals, ih]
        omega

theorem sumTrait_nestedIncr (c : AttrCounts) (tt v t : Json) :
    sumTrait (nestedIncr c tt v) t = sumTrait c t + (if jsonBeq tt t then 1 else 0) := by
  induction c with
  | nil =>
      by_cases h : jsonBeq tt t <;> simp [nestedIncr, sumTrait, sumVals, h]
  | cons b rest ih =>
      by_cases h : jsonBeq b.1 tt
      · have hb : b.1 = tt := (jsonBeq_iff b.1 tt).mp h
        subst hb
        by_cases h2 : jsonBeq b.1 t
        · simp [nestedIncr, jsonBeq_refl, sumTrait, h2, sumVals_dictIncr]
          omega
        · simp [nestedIncr, jsonBeq_refl, sumTrait, h2, sumVals_dictIncr]
      · simp [nestedIncr, h, sumTrait, ih]
        omega

theorem attrTraitType_of_pySubscr (a tt : Json) (h : pySubscr a "trait_type" = .ok tt) :
    attrTraitType a = some tt := by
  cases a <;> simp [pySubscr] at h
  case obj fields =>
    cases hl : alookup "trait_type" fields with
    | none => rw [hl] at h; exact Except.noConfusion h
    | some v =>
        rw [hl] at h
        injection h with h
        rw [attrTraitType, hl, h]

theorem sumTrait_process_attribute (c : AttrCounts) (a : Json) (c' : AttrCounts)
    (h : process_attribute c a = .ok c') (t : Json) :
    sumTrait c' t = sumTrait c t + (if attrHasTrait t a then 1 else 0) := by
  unfold process_attribute at h
  simp only [Bind.bind, Except.bind, Pure.pure, Except.pure] at h
  cases h1 : pySubscr a "trait_type" with
  | error e => simp only [h1] at h; exact Except.noConfusion h
  | ok tt =>
  simp only [h1] at h
  cases h2 : pySubscr a "value" with
  | error e => simp only [h2] at h; exact Except.noConfusion h
  | ok rawValue =>
  simp only [h2] at h
  have htt := attrTraitType_of_pySubscr a tt h1
  have hhat : attrHasTrait t a = jsonBeq tt t := by
    rw [attrHasTrait, htt]
  split at h
  · exact Except.noConfusion h
  · split at h
    · exact Except.noConfusion h
    · injection h with h
      rw [← h, sumTrait_nestedIncr, hhat]

theorem sumTrait_process_attributes :
    ∀ (attrs : List Json) (c c' : AttrCounts),
      process_attributes c attrs = .ok c' → ∀ t : Json,
      sumTrait c' t = sumTrait c t + attrs.countP (attrHasTrait t) := by
  intro attrs
  induction attrs with
  | nil =>
      intro c c' h t
      injection h with h
      rw [h]
      simp
  | cons a rest ih =>
      intro c c' h t
      simp only [process_attributes, Bind.bind, Except.bind] at h
      cases h1 : process_attribute c a with
      | error e => simp only [h1] at h; exact Except.noConfusion h
      | ok c1 =>
      simp only [h1] at h
      have hstep := sumTrait_process_attribute c a c1 h1 t
      have hrest := ih c1 c' h t
      rw [hrest, hstep, List.countP_cons]
      omega

theorem process_record_spec (st : Nat × AttrCounts) (r : TokenRecord) (st' : Nat × AttrCounts)
    (h : process_record st r = .ok st') :
    st'.1 = st.1 + (if recordCounted r then 1 else 0)
    ∧ ∀ t : Json, sumTrait st'.2 t = sumTrait st.2 t + recordTraitEntries r t := by
  unfold process_record at h
  simp only [Bind.bind, Except.bind, Pure.pure, Except.pure] at h
  cases h1 : alookup "arweave" r with
  | none => simp only [h1] at h; exact Except.noConfusion h
  | some aw =>
  simp only [h1] at h
  cases aw with
  | null => simp only [pyGet] at h; exact Except.noConfusion h
  | bool b => simp only [pyGet] at h; exact Except.noConfusion h
  | num nv => simp only [pyGet] at h; exact Except.noConfusion h
  | str s => simp only [pyGet] at h; exact Except.noConfusion h
  | arr items => simp only [pyGet] at h; exact Except.noConfusion h
  | obj awf =>
  simp only [pyGet] at h
  cases h2 : alookup "attributes" awf with
  | none =>
      simp only [h2] at h
      injection h with h
      subst h
      refine ⟨by simp [recordCounted, recordAttrList, h1, h2], ?_⟩
      intro t
      simp [recordTraitEntries, recordAttrList, h1, h2]
  | some attrsVal =>
  simp only [h2] at h
  cases attrsVal with
  | arr attrs =>
      by_cases he : attrs.isEmpty = true
      · simp only [he, if_true] at h
        injection h with h
        subst h
        have hae : attrs = [] := by cases attrs with | nil => rfl | cons => simp at he
        subst hae
        refine ⟨by simp [recordCounted, recordAttrList, h1, h2], ?_⟩
        intro t
        simp [recordTraitEntries, recordAttrList, h1, h2]
  -- nonempty attributes: the record is counted and its attributes processed
      · simp only [he, if_false] at h
        cases h3 : process_attributes st.2 attrs with
        | error e => simp only [h3] at h; exact Except.noConfusion h
        | ok c' =>
        simp only [h3] at h
        injection h with h
        subst h
        constructor
        · have hne : attrs.isEmpty = false := by simpa using he
          simp [recordCounted, recordAttrList, h1, h2, hne]
        · intro t
          have hsum := sumTrait_process_attributes attrs st.2 c' h3 t
          simp [recordTraitEntries, recordAttrList, h1, h2, hsum]
  | null =>
      simp only [truthy, if_false, Bool.false_eq_true] at h
      injection h with h
      subst h
      refine ⟨by simp [recordCounted, recordAttrList, h1, h2], ?_⟩
      intro t
      simp [recordTraitEntries, recordAttrList, h1, h2]
  | bool b =>
      by_cases htv : truthy (Json.bool b) = true
      · simp only [htv, if_true] at h; exact Except.noConfusion h
      · simp only [htv, if_false] at h
        injection h with h
        subst h
        refine ⟨by simp [recordCounted, recordAttrList, h1, h2], ?_⟩
        intro t
        simp [recordTraitEntries, recordAttrList, h1, h2]
  | num nv =>
      by_cases htv : truthy (Json.num nv) = true
      · simp only [htv, if_true] at h; exact Except.noConfusion h
      · simp only [htv, if_false] at h
        injection h with h
        subst h
        refine ⟨by simp [recordCounted, recordAttrList, h1, h2], ?_⟩
        intro t
        simp [recordTraitEntries, recordAttrList, h1, h2]
  | str s =>
      by_cases htv : truthy (Json.str s) = true
      · simp only [htv, if_true] at h; exact Except.noConfusion h
      · simp only [htv, if_false] at h
        injection h with h
        subst h
        refine ⟨by simp [recordCounted, recordAttrList, h1, h2], ?_⟩
        intro t
        simp [recordTraitEntries, recordAttrList, h1, h2]
  | obj fields =>
      by_cases htv : truthy (Json.obj fields) = true
      · simp only [htv, if_true] at h; exact Except.noConfusion h
      · simp only [htv, if_false] at h
        injection h with h
        subst h
        refine ⟨by simp [recordCounted, recordAttrList, h1, h2], ?_⟩
        intro t
        simp [recordTraitEntries, recordAttrList, h1, h2]

theorem attribute_distribution_loop_spec :
    ∀ (ms : TokenMap) (st st' : Nat × AttrCounts),
      attribute_distribution_loop st ms = .ok st' →
      st'.1 = st.1 + ms.countP (fun td => recordCounted td.2)
      ∧ ∀ t : Json, sumTrait st'.2 t
          = sumTrait st.2 t + (ms.map fun td => recordTraitEntries td.2 t).sum := by
  intro ms
  induction ms with
  | nil =>
      intro st st' h
      injection h with h
      subst h
      simp
  | cons td rest ih =>
      intro st st' h
      simp only [attribute_distribution_loop, Bind.bind, Except.bind] at h
      cases h1 : process_record st td.2 with
      | error e => simp only [h1] at h; exact Except.noConfusion h
      | ok st1 =>
      simp only [h1] at h
      have hstep := process_record_spec st td.2 st1 h1
      have hrest := ih st1 st' h
      constructor
      · rw [hrest.1, hstep.1, List.countP_cons]
        omega
      · intro t
        rw [hrest.2 t, hstep.2 t, List.map_cons, List.sum_cons]
        omega

theorem attrTraitType_of_attrHasTrait (t a : Json) (h : attrHasTrait t a = true) :
    attrTraitType a = some t := by
  unfold attrHasTrait at h
  cases hAT : attrTraitType a with
  | none => rw [hAT] at h; exact Bool.noConfusion h
  | some tt =>
      rw [hAT] at h
      have htt : jsonBeq tt t = true := by simpa using h
      rw [(jsonBeq_iff tt t).mp htt]

theorem countP_attrHasTrait_le_one (t : Json) :
    ∀ l : List Json, (l.map attrTraitType).Nodup → l.countP (attrHasTrait t) ≤ 1 := by
  intro l
  induction l with
  | nil => intro _; simp
  | cons a rest ih =>
      intro h
      rw [List.map_cons, List.nodup_cons] at h
      rcases h with ⟨hnot, hnd⟩
      rw [List.countP_cons]
      by_cases hp : attrHasTrait t a = true
      · have hTT := attrTraitType_of_attrHasTrait t a hp
        have hzero : rest.countP (attrHasTrait t) = 0 := by
          rw [List.countP_eq_zero]
          intro b hb hpb
          have hbT := attrTraitType_of_attrHasTrait t b hpb
          exact hnot (by rw [hTT, ← hbT]; exact List.mem_map_of_mem attrTraitType hb)
        simp [hp, hzero]
      · have hpf : attrHasTrait t a = false := by simpa using hp
        simp [hpf]
        exact ih hnd

theorem recordTraitEntries_le_indicator (r : TokenRecord) (t : Json)
    (h : ((recordAttrList r).map attrTraitType).Nodup) :
    recordTraitEntries r t ≤ (if recordCounted r then 1 else 0) := by
  by_cases hc : recordCounted r = true
  · simp only [hc, if_true]
    exact countP_attrHasTrait_le_one t _ h
  · have hemp : recordAttrList r = [] := by
      unfold recordCounted at hc
      cases hl : recordAttrList r with
      | nil => rfl
      | cons x xs => rw [hl] at hc; simp at hc
    simp [recordTraitEntries, hemp, hc]

theorem sum_entries_le_countP (t : Json) :
    ∀ ms : TokenMap, (∀ td ∈ ms, ((recordAttrList td.2).map attrTraitType).Nodup) →
      (ms.map fun td => recordTraitEntries td.2 t).sum
        ≤ ms.countP fun td => recordCounted td.2 := by
  intro ms
  induction ms with
  | nil => intro _; simp
  | cons td rest ih =>
      intro h
      rw [List.map_cons, List.sum_cons, List.countP_cons]
      have h1 := recordTraitEntries_le_indicator td.2 t (h td (List.mem_cons_self _ _))
      have h2 := ih fun td' htd' => h td' (List.mem_cons_of_mem _ htd')
      by_cases hc : recordCounted td.2 = true
      · simp only [hc, if_true] at h1 ⊢
        omega
      · simp only [hc, if_false] at h1 ⊢
        omega

/-- Claim C8 counterexample: a single record, with arweave present, whose
attributes list carries the same trait type twice (both values null).  The
aggregator counts both entries under the empty string, so the value counts
for that trait type sum to two while the tokens-with-metadata denominator is
one: the sum exceeds the denominator, and it also differs from the number of
tokens with a non-null value for the trait, which is zero. -/
theorem c8_counterexample :
    attribute_distribution_attempt
        [("t", [("token", Json.str "t"),
          ("arweave", Json.obj [("attributes", Json.arr
            [Json.obj [("trait_type", Json.str "T"), ("value", Json.null)],
             Json.obj [("trait_type", Json.str "T"), ("value", Json.null)]])])])]
      = .ok (1, [(Json.str "T", [(Json.str "", 2)])])
    ∧ sumTrait [(Json.str "T", [(Json.str "", 2)])] (Json.str "T") = 2
    ∧ ¬(2 ≤ 1) :=
  ⟨rfl, rfl, by decide⟩

/-- Claim C8, amended: for every token map the aggregator accepts, the value
counts recorded under a trait type sum to the total number of attribute
entries with that trait type across all records with truthy attributes,
null values included (each null counted under the empty string); the
denominator equals the number of records with truthy attributes; and under
the additional hypothesis that no record repeats a trait type inside its
attributes list, each per-trait sum is bounded by the denominator. -/
theorem c8_trait_value_counts
    (m : TokenMap) (n : Nat) (c : AttrCounts)
    (h : attribute_distribution_attempt m = .ok (n, c)) :
    (∀ t : Json, sumTrait c t = (m.map fun td => recordTraitEntries td.2 t).sum)
    ∧ n = m.countP (fun td => recordCounted td.2)
    ∧ ((∀ td ∈ m, ((recordAttrList td.2).map attrTraitType).Nodup) →
        ∀ t : Json, sumTrait c t ≤ n) := by
  have hspec := attribute_distribution_loop_spec m (0, []) (n, c) h
  refine ⟨?_, ?_, ?_⟩
  · intro t
    have := hspec.2 t
    simpa [sumTrait] using this
  · simpa using hspec.1
  · intro hnd t
    have h1 := hspec.2 t
    have h2 := sum_entries_le_countP t m hnd
    have h3 := hspec.1
    simp only [sumTrait] at h1
    omega

/-- Claim C8 witness: for a one-record map with two distinct trait types,
the sum of value counts under each trait type is bounded by the
tokens-with-metadata denominator. -/
theorem c8_trait_value_counts_witness :
    sumTrait [(Json.str "hair", [(Json.str "white", 1)]),
              (Json.str "eyes", [(Json.str "", 1)])] (Json.str "hair") ≤ 1 :=
  (c8_trait_value_counts
      [("t", [("token", Json.str "t"),
        ("arweave", Json.obj [("attributes", Json.arr
          [Json.obj [("trait_type", Json.str "hair"), ("value", Json.str "white")],
           Json.obj [("trait_type", Json.str "eyes"), ("value", Json.null)]])])])]
      1
      [(Json.str "hair", [(Json.str "white", 1)]), (Json.str "eyes", [(Json.str "", 1)])]
      rfl).2.2
    (by
      intro td htd
      rw [List.mem_singleton] at htd
      subst htd
      show ([some (Json.str "hair"), some (Json.str "eyes")] : List (Option Json)).Nodup
      simp)
    (Json.str "hair")
